import Mathlib

/-!
Verification of the changesets-fetcher query orchestration core.

This file gives a shallow embedding, in Lean 4, of the parts of the
repository the claims are about:

* `AthenaQueryRunner.wait_for_queries` (src/changesets_fetcher/athena.py,
  lines 155-229): the batch completion tracker.  The remote engine is
  modelled as an oracle `poll : Nat -> String -> QueryPollResponse` giving,
  for each polling sweep and execution id, the status snapshot the call
  `athena_client.get_query_execution` would return.  The unbounded `while`
  loop is given explicit fuel; `none` means the fuel ran out before the
  tracked set drained (the Python loop would simply keep polling).
* the class-level `running_queries` attribute (athena.py line 20) and the
  item assignment in `run_query` (lines 146-148), with Python attribute
  semantics: the dict is owned by the class object and shared by every
  instance.
* the query resolution and composition logic shared by
  `AthenaQueryRunner.run_query` (athena.py lines 123-133) and
  `DuckDBQueries.run_query` (duckdb.py lines 86-96).
* the named-block extraction of `load_query_from_path`
  (src/changesets_fetcher/utils.py lines 42-67); the filesystem part
  (locating the file) is out of scope, the embedding starts from the file
  content.
* `AthenaQueryRunner._list_partitions_from_s3` (athena.py lines 305-333)
  with the S3 listing as an oracle, and the Glue batching loop of
  `add_partitions_with_glue` (athena.py lines 274-297) with the Glue
  `batch_create_partition` error report as an oracle.

Python floats appear only in the backoff interval computation
(1.0, *1.5, capped at 10.0).  Every value that computation ever produces is
a dyadic rational with a tiny numerator (1, 3/2, 9/4, 27/8, 81/16, 243/32,
10, 15), all exactly representable as IEEE doubles, and `min` and `*` are
exact on them, so the embedding into `Rat` is exact, not an approximation.
Python string `.strip()` is modelled by dropping whitespace characters on
both ends of the character list, `.startswith` by list prefix, and
`.split("\n")` by splitting the character list at newline characters.
-/

/-- Athena query lifecycle state as classified by `wait_for_queries`:
the code tests `state == "SUCCEEDED"` and `state in {"FAILED", "CANCELLED"}`
and leaves everything else (QUEUED, RUNNING, ...) tracked, so the
non-terminal states are folded into `running`. -/
inductive QueryState where
  | succeeded
  | failed
  | cancelled
  | running
deriving DecidableEq, Repr

/-- One `get_query_execution` snapshot: the state together with the optional
`Statistics` fields `EngineExecutionTimeInMillis` and `DataScannedInBytes`
(the backend may omit either; `stats.get(..., 0)` then defaults to zero). -/
structure QueryPollResponse where
  state : QueryState
  engineExecutionTimeInMillis : Option Nat
  dataScannedInBytes : Option Nat
deriving DecidableEq, Repr

/-- The statistics recorded for a succeeded query, mirroring the dict
`{"execution_time_ms": float(stats.get("EngineExecutionTimeInMillis", 0)),
"data_scanned_bytes": float(stats.get("DataScannedInBytes", 0))}`. -/
structure QueryStats where
  execution_time_ms : Nat
  data_scanned_bytes : Nat
deriving DecidableEq, Repr

/-- Build the recorded statistics from a poll response, defaulting each
omitted field to zero exactly as `stats.get(..., 0)` does. -/
def recordStats (resp : QueryPollResponse) : QueryStats :=
  { execution_time_ms := resp.engineExecutionTimeInMillis.getD 0
    data_scanned_bytes := resp.dataScannedInBytes.getD 0 }

/-- What one polling sweep (the `for query_name, query_execution_id in
list(self.running_queries.items())` loop body) produces: the entries still
tracked afterwards, the newly recorded statistics, the newly recorded
failures, and the trace of entries whose status was fetched. -/
structure SweepResult where
  still_running : List (String × String)
  newStats : List (String × QueryStats)
  newFailed : List String
  checked : List (String × String)
deriving DecidableEq, Repr

/-- One polling sweep over the snapshot of the tracked map.  `g` is the
status oracle for this sweep.  A SUCCEEDED entry moves to the statistics,
FAILED or CANCELLED moves to the failure list, anything else stays tracked;
every entry of the snapshot is polled exactly once (`checked`). -/
def sweep (g : String → QueryPollResponse) : List (String × String) → SweepResult
  | [] => { still_running := [], newStats := [], newFailed := [], checked := [] }
  | (name, eid) :: rest =>
    let resp := g eid
    let r := sweep g rest
    match resp.state with
    | QueryState.succeeded =>
        { still_running := r.still_running
          newStats := (name, recordStats resp) :: r.newStats
          newFailed := r.newFailed
          checked := (name, eid) :: r.checked }
    | QueryState.failed =>
        { still_running := r.still_running
          newStats := r.newStats
          newFailed := name :: r.newFailed
          checked := (name, eid) :: r.checked }
    | QueryState.cancelled =>
        { still_running := r.still_running
          newStats := r.newStats
          newFailed := name :: r.newFailed
          checked := (name, eid) :: r.checked }
    | QueryState.running =>
        { still_running := (name, eid) :: r.still_running
          newStats := r.newStats
          newFailed := r.newFailed
          checked := (name, eid) :: r.checked }

/-- The `while self.running_queries:` loop of `wait_for_queries`, with
explicit fuel.  State: sweep counter `n` (feeds the oracle), current poll
`interval`, tracked map `running`, accumulated `stats` and `failed`, and the
trace `sleeps` of the intervals slept so far.  After a sweep that leaves
queries tracked the code sleeps for `interval` and then sets
`interval = min(max_interval, interval * backoff)` with
`initial_interval = 1.0`, `max_interval = 10.0`, `backoff = 1.5`. -/
def waitLoop (poll : Nat → String → QueryPollResponse) :
    Nat → Nat → ℚ → List (String × String) → List (String × QueryStats) →
    List String → List ℚ →
    Option (List (String × String) × List (String × QueryStats) × List String × List ℚ)
  | 0, _, _, running, stats, failed, sleeps =>
      if running.isEmpty then some (running, stats, failed, sleeps) else none
  | fuel + 1, n, interval, running, stats, failed, sleeps =>
      if running.isEmpty then some (running, stats, failed, sleeps)
      else
        let r := sweep (poll n) running
        if r.still_running.isEmpty then
          waitLoop poll fuel (n + 1) interval r.still_running
            (stats ++ r.newStats) (failed ++ r.newFailed) sleeps
        else
          waitLoop poll fuel (n + 1) (min 10 (interval * (3 / 2))) r.still_running
            (stats ++ r.newStats) (failed ++ r.newFailed) (sleeps ++ [interval])

/-- The observable outcome of one `wait_for_queries` call: the tracked map
after the loop, the statistics summary logged for the succeeded queries, the
failure list, the sleeps performed, and the aggregate error raised at the
end when the failure list is non-empty (it carries the count from the
exception message `"{len(failed_queries)} queries failed"` and the names
from the `"Failed queries: ..."` log line). -/
structure WaitOutcome where
  tracked_after : List (String × String)
  completed_stats : List (String × QueryStats)
  failed_queries : List String
  sleeps : List ℚ
  raised : Option (Nat × List String)
deriving DecidableEq, Repr

/-- The operation `AthenaQueryRunner.wait_for_queries`, as a function of the status oracle,
the fuel and the tracked map at call time.  An empty tracked map returns
immediately (the `if not self.running_queries: return` guard is the
`running.isEmpty` test of the first loop iteration). -/
def wait_for_queries (poll : Nat → String → QueryPollResponse) (fuel : Nat)
    (running : List (String × String)) : Option WaitOutcome :=
  match waitLoop poll fuel 0 1 running [] [] [] with
  | none => none
  | some (r, s, f, sl) =>
      some { tracked_after := r, completed_stats := s, failed_queries := f,
             sleeps := sl,
             raised := (if f.isEmpty then none else some (f.length, f)) }

/-- One step of the backoff schedule:
`interval = min(max_interval, interval * backoff)`. -/
def nextInterval (i : ℚ) : ℚ := min 10 (i * (3 / 2))

/-- The backoff interval before the `n`-th sleep: starts at the initial
interval 1 and grows by `nextInterval` after each sleep. -/
def intervalSeq : Nat → ℚ
  | 0 => 1
  | n + 1 => nextInterval (intervalSeq n)

/-- Python `str.strip()` on a character list: drop whitespace on both ends. -/
def stripChars (l : List Char) : List Char :=
  ((l.dropWhile Char.isWhitespace).reverse.dropWhile Char.isWhitespace).reverse

/-- Python `str.strip()`. -/
def pyStrip (s : String) : String := String.mk (stripChars s.toList)

/-- Python `s.startswith(p)`: `p` is a prefix of `s`. -/
def pyStartsWith (s p : String) : Bool := p.toList.isPrefixOf s.toList

/-- Python `s.split("\n")` on the character list: `[[]]` for the empty
string, a new group after every newline character. -/
def splitNLChars : List Char → List (List Char)
  | [] => [[]]
  | c :: rest =>
    match splitNLChars rest with
    | [] => if c = '\n' then [[], []] else [[c]]
    | g :: gs => if c = '\n' then [] :: g :: gs else (c :: g) :: gs

/-- Python `content.split("\n")`. -/
def pySplitNL (s : String) : List String := (splitNLChars s.toList).map String.mk

/-- Python truthiness of an optional string argument (`if prefix or suffix:`,
`elif query_path:`): `None` and the empty string are falsy. -/
def pyTruthy : Option String → Bool
  | none => false
  | some s => !(s == "")

/-- The errors `load_query_from_path` can raise (`FileNotFoundError` when the
SQL file is absent, `KeyError` when the named block is absent). -/
inductive LoadError where
  | fileNotFound (msg : String)
  | keyError (msg : String)
deriving DecidableEq, Repr

/-- The errors `run_query` itself can raise before submitting: the
`ValueError` for missing arguments, or an error propagated from
`load_query_from_path`. -/
inductive RunQueryError where
  | valueError (msg : String)
  | loadError (e : LoadError)
deriving DecidableEq, Repr

/-- The `ValueError` message of `run_query`. -/
def missingArgsMsg : String :=
  "Provide either query (string) or query_path (filename:query-name)"

/-- The query-resolution branch of `run_query` (athena.py lines 123-128,
duckdb.py lines 86-91): `if isinstance(query, str)` takes the literal as
given; `elif query_path:` loads from the file reference (the filesystem
lookup is the oracle `loadFn`); otherwise `ValueError`.  `query : Option
String` models the `query: str | None` parameter, `some q` being exactly
the `isinstance(query, str)` case. -/
def resolve_query (query query_path : Option String)
    (loadFn : String → Except LoadError String) : Except RunQueryError String :=
  match query with
  | some q => Except.ok q
  | none =>
      if pyTruthy query_path then
        (loadFn (query_path.getD "")).mapError RunQueryError.loadError
      else Except.error (RunQueryError.valueError missingArgsMsg)

/-- The composition branch of `run_query` (athena.py lines 130-133, duckdb.py
lines 93-96): when a prefix or suffix is (truthily) present, the query
becomes `f"{prefix_sql} ({resolved_query}) {suffix_sql}".strip()` with
`prefix_sql = (prefix or "").strip()` and `suffix_sql = (suffix or
"").strip()`; otherwise the resolved query is left alone. -/
def composeQuery (resolved : String) (pfx sfx : Option String) : String :=
  if pyTruthy pfx || pyTruthy sfx then
    let pfx_sql := pyStrip (pfx.getD "")
    let sfx_sql := pyStrip (sfx.getD "")
    pyStrip (pfx_sql ++ " (" ++ resolved ++ ") " ++ sfx_sql)
  else resolved

/-- The SQL string `run_query` hands to the engine
(`start_query_execution(QueryString=resolved_query, ...)` in athena.py,
`self.conn.execute(resolved_query)` in duckdb.py): resolution followed by
composition. -/
def run_query_sql (query query_path pfx sfx : Option String)
    (loadFn : String → Except LoadError String) : Except RunQueryError String :=
  (resolve_query query query_path loadFn).map (fun r => composeQuery r pfx sfx)

/-- The reading the claim takes of the composer ("each of the three segments
trimmed"): like `composeQuery` but with the body trimmed too. -/
def claim_composeQuery (resolved : String) (pfx sfx : Option String) : String :=
  if pyTruthy pfx || pyTruthy sfx then
    pyStrip (pyStrip (pfx.getD "") ++ " (" ++ pyStrip resolved ++ ") " ++ pyStrip (sfx.getD ""))
  else resolved

/-- The block begin markers of `load_query_from_path`:
`{f"-- BEGIN {query_name}", f"--BEGIN {query_name}"}`. -/
def beginMarkers (query_name : String) : List String :=
  ["-- BEGIN " ++ query_name, "--BEGIN " ++ query_name]

/-- A line whose stripped content starts the end of a block:
`stripped.startswith("--END") or stripped.startswith("-- END")`. -/
def isEndLine (stripped : String) : Bool :=
  pyStartsWith stripped "--END" || pyStartsWith stripped "-- END"

/-- The marker scan of `load_query_from_path` (utils.py lines 48-59): walk
the lines with the `in_block` flag; a begin-marker line sets the flag and is
skipped (`continue`); once in the block an end line breaks; every other
in-block line is collected. -/
def collectBlockLines (markers : List String) :
    List String → Bool → List String
  | [], _ => []
  | line :: rest, in_block =>
      if markers.contains (pyStrip line) then collectBlockLines markers rest true
      else if in_block && isEndLine (pyStrip line) then []
      else if in_block then line :: collectBlockLines markers rest true
      else collectBlockLines markers rest false

/-- The named-block extraction of `load_query_from_path` (utils.py lines
42-67) starting from the file content: split into lines, scan for the block,
join and strip; the empty result raises `KeyError` (modelled as `none`). -/
def load_query_block (content query_name : String) : Option String :=
  let block := collectBlockLines (beginMarkers query_name) (pySplitNL content) false
  let query_sql := pyStrip (String.intercalate "\n" block)
  if query_sql == "" then none else some query_sql

/-- The reading the claim takes of the block scan: exactly the lines strictly
between the first begin-marker line and the next subsequent end line. -/
def claimBlockLines (markers : List String) (lines : List String) : List String :=
  ((lines.dropWhile (fun l => !(markers.contains (pyStrip l)))).drop 1).takeWhile
    (fun l => !(isEndLine (pyStrip l)))

/-- The function `load_query_block` as the claim states it: join and strip the lines
strictly between the markers, `none` when that is empty. -/
def claim_load_query_block (content query_name : String) : Option String :=
  let sql := pyStrip (String.intercalate "\n"
    (claimBlockLines (beginMarkers query_name) (pySplitNL content)))
  if sql == "" then none else some sql

/-- The amended reading: the lines strictly between the first begin-marker
line and the next subsequent end line, with any repeated begin-marker lines
for the same block name excluded. -/
def specBlockLines (markers : List String) (lines : List String) : List String :=
  (claimBlockLines markers lines).filter (fun l => !(markers.contains (pyStrip l)))

/-- The function `load_query_block` as amended: join and strip the strictly-between lines
minus repeated begin markers, `none` when that is empty. -/
def spec_load_query_block (content query_name : String) : Option String :=
  let sql := pyStrip (String.intercalate "\n"
    (specBlockLines (beginMarkers query_name) (pySplitNL content)))
  if sql == "" then none else some sql

/-- The state of the `AthenaQueryRunner` *class object*.  Line 20 of
athena.py declares `running_queries: dict[str, str] = {}` in the class body,
so the dict belongs to the class.  No method ever rebinds the attribute
(`self.running_queries = ...` appears nowhere); `run_query` mutates it by
item assignment and `wait_for_queries` by `pop`, and Python attribute lookup
resolves `self.running_queries` to this one class-level dict for every
instance. -/
structure AthenaClassState where
  running_queries : List (String × String)
deriving DecidableEq, Repr

/-- Python dict item assignment `d[k] = v`: overwrite the value of an
existing key in place, else append the new pair. -/
def dictSet : List (String × String) → String → String → List (String × String)
  | [], k, v => [(k, v)]
  | (k0, v0) :: rest, k, v =>
      if k0 = k then (k, v) :: rest else (k0, v0) :: dictSet rest k v

/-- An `AthenaQueryRunner` instance.  Its identity is all it carries here:
the tracked-query mapping is *not* a field, because in the source it lives
on the class (see `AthenaClassState`). -/
structure AthenaRunnerId where
  instance_id : Nat
deriving DecidableEq, Repr

/-- Reading `self.running_queries` through any instance: attribute lookup
falls through to the class attribute. -/
def read_running_queries (_inst : AthenaRunnerId) (cls : AthenaClassState) :
    List (String × String) :=
  cls.running_queries

/-- The tracking effect of `run_query` (athena.py line 148,
`self.running_queries[query_name] = query_execution_id`) performed through
some instance: it mutates the shared class-level dict. -/
def submit_tracking (_inst : AthenaRunnerId) (cls : AthenaClassState)
    (query_name query_execution_id : String) : AthenaClassState :=
  { running_queries := dictSet cls.running_queries query_name query_execution_id }

/-- Python `s.strip("/")`: drop `/` characters on both ends. -/
def stripSlashes (s : String) : String :=
  String.mk (((s.toList.dropWhile (fun c => c == '/')).reverse.dropWhile
    (fun c => c == '/')).reverse)

/-- Python `s.rstrip("/")`: drop trailing `/` characters. -/
def rstripSlashes (s : String) : String :=
  String.mk ((s.toList.reverse.dropWhile (fun c => c == '/')).reverse)

/-- The part of a string before its first occurrence of `c`
(`s.split(c, 1)[0]`). -/
def beforeFirst (c : Char) (s : String) : String :=
  String.mk (s.toList.takeWhile (fun x => x != c))

/-- The part of a string after its first occurrence of `c`
(`s.split(c, 1)[1]`, for a string that contains `c`). -/
def afterFirst (c : Char) (s : String) : String :=
  String.mk ((s.toList.dropWhile (fun x => x != c)).drop 1)

/-- The helper `AthenaQueryRunner._list_partitions_from_s3` (athena.py lines 305-333).
The S3 `list_objects_v2` paginator is the oracle `listCommonPrefixes`,
mapping the bucket and prefix to the accumulated `CommonPrefixes` strings.
Validation: the URI must start with `s3://` and the remainder must contain a
`/`; then `bucket, prefix = bucket_and_path.split("/", 1)` and
`prefix = prefix.rstrip("/") + "/"`.  Each common prefix `p` yields
`remainder = p[len(prefix):].strip("/")`; those starting with
`f"{partition_key}="` contribute `(remainder.split("=", 1)[1], p)`. -/
def list_partitions_from_s3 (listCommonPrefixes : String → String → List String)
    (s3_uri partition_key : String) :
    Except String (List (String × String) × String) :=
  if !(pyStartsWith s3_uri "s3://") then
    Except.error "s3_prefix must be a full S3 URI (s3://bucket/path/)"
  else
    let bucket_and_path := String.mk (s3_uri.toList.drop 5)
    if !(bucket_and_path.toList.contains '/') then
      Except.error "s3_prefix must include a path after the bucket name"
    else
      let bucket := beforeFirst '/' bucket_and_path
      let pathPart := rstripSlashes (afterFirst '/' bucket_and_path) ++ "/"
      let common_prefixes := listCommonPrefixes bucket pathPart
      let partitions := common_prefixes.filterMap (fun p =>
        let remainder := stripSlashes (String.mk (p.toList.drop pathPart.toList.length))
        if pyStartsWith remainder (partition_key ++ "=") then
          some (afterFirst '=' remainder, p)
        else none)
      Except.ok (partitions, bucket)

/-- A Glue `PartitionInput`: the partition values and the storage-descriptor
location (`add_partitions_with_glue` copies the descriptor of the table and
overrides only `Location`, which is the only part the counting logic can
observe). -/
structure PartitionInput where
  values : List String
  location : String
deriving DecidableEq, Repr

/-- The batching loop of `add_partitions_with_glue` (athena.py lines
274-297): `for i in range(0, len(partition_inputs), 100)` submits
`partition_inputs[i : i + 100]` and adds `len(batch) - len(errors)` to
`created`.  `glueErrs` is the Glue oracle: for the `k`-th
`batch_create_partition` call on a given batch it returns the
`ErrorMessage` strings of `response.get("Errors", [])`.  The per-error
handling only logs (AlreadyExistsException is skipped silently), so the
returned count is the sole observable. -/
def glueCreateLoop (glueErrs : Nat → List PartitionInput → List String)
    (inputs : List PartitionInput) (i k : Nat) (created : Int) : Int :=
  if h : i < inputs.length then
    let batch := (inputs.drop i).take 100
    let errs := glueErrs k batch
    glueCreateLoop glueErrs inputs (i + 100) (k + 1)
      (created + (batch.length : Int) - (errs.length : Int))
  else created
termination_by inputs.length - i
decreasing_by omega

/-- The partition count `add_partitions_with_glue` returns for a given list
of partition inputs. -/
def add_partitions_created (glueErrs : Nat → List PartitionInput → List String)
    (inputs : List PartitionInput) : Int :=
  glueCreateLoop glueErrs inputs 0 0 0

/-- The batches of at most 100 the spec describes: successive slices of 100.
Used as the specification side of the batching claim. -/
def chunks100 (l : List PartitionInput) : List (List PartitionInput) :=
  if h : l = [] then [] else l.take 100 :: chunks100 (l.drop 100)
termination_by l.length
decreasing_by
  simp only [List.length_drop]
  have : l.length ≠ 0 := fun hz => h (List.eq_nil_of_length_eq_zero hz)
  omega

/-- Sum, over the batches in order (the `k`-th call numbered from `k0`), of
`batch size - reported errors`. -/
def sumCreatedFrom (glueErrs : Nat → List PartitionInput → List String) :
    Nat → List (List PartitionInput) → Int
  | _, [] => 0
  | k, b :: rest =>
      ((b.length : Int) - ((glueErrs k b).length : Int)) + sumCreatedFrom glueErrs (k + 1) rest

/-- A concrete status oracle for exercising the tracker: execution `e1`
succeeds with no statistics reported, `e2` fails, everything else keeps
running. -/
def demoPoll : Nat → String → QueryPollResponse := fun _ eid =>
  if eid = "e1" then
    { state := QueryState.succeeded, engineExecutionTimeInMillis := none,
      dataScannedInBytes := none }
  else if eid = "e2" then
    { state := QueryState.failed, engineExecutionTimeInMillis := some 5,
      dataScannedInBytes := some 7 }
  else
    { state := QueryState.running, engineExecutionTimeInMillis := none,
      dataScannedInBytes := none }

/-- A concrete tracked map: two queries with distinct names. -/
def demoRunning : List (String × String) := [("alpha", "e1"), ("beta", "e2")]

/-- The outcome `wait_for_queries demoPoll 1 demoRunning` computes to. -/
def demoOut : WaitOutcome :=
  { tracked_after := []
    completed_stats := [("alpha", { execution_time_ms := 0, data_scanned_bytes := 0 })]
    failed_queries := ["beta"]
    sleeps := []
    raised := some (1, ["beta"]) }

theorem sweep_checked (g : String → QueryPollResponse) :
    ∀ l : List (String × String), (sweep g l).checked = l := by
  intro l
  induction l with
  | nil => rfl
  | cons p rest ih =>
    obtain ⟨name, eid⟩ := p
    cases h : (g eid).state <;> simp [sweep, h, ih]

theorem sweep_count (g : String → QueryPollResponse) (x : String) :
    ∀ l : List (String × String),
      ((sweep g l).newStats.map Prod.fst).count x
        + (sweep g l).newFailed.count x
        + ((sweep g l).still_running.map Prod.fst).count x
      = (l.map Prod.fst).count x := by
  intro l
  induction l with
  | nil => rfl
  | cons p rest ih =>
    obtain ⟨name, eid⟩ := p
    cases h : (g eid).state <;>
      by_cases hx : name = x <;>
      simp [sweep, h, List.count_cons, hx] <;>
      omega

theorem sweep_still_mem (g : String → QueryPollResponse) :
    ∀ l : List (String × String), ∀ p ∈ (sweep g l).still_running, p ∈ l := by
  intro l
  induction l with
  | nil => intro p hp; simp [sweep] at hp
  | cons q rest ih =>
    obtain ⟨name, eid⟩ := q
    intro p hp
    cases h : (g eid).state with
    | running =>
      simp [sweep, h] at hp
      rcases hp with rfl | hp
      · exact List.mem_cons_self _ _
      · exact List.mem_cons_of_mem _ (ih _ hp)
    | succeeded =>
      simp [sweep, h] at hp
      exact List.mem_cons_of_mem _ (ih _ hp)
    | failed =>
      simp [sweep, h] at hp
      exact List.mem_cons_of_mem _ (ih _ hp)
    | cancelled =>
      simp [sweep, h] at hp
      exact List.mem_cons_of_mem _ (ih _ hp)

theorem sweep_stats_src (g : String → QueryPollResponse) :
    ∀ l : List (String × String), ∀ q ∈ (sweep g l).newStats,
      ∃ eid, (q.1, eid) ∈ l ∧ (g eid).state = QueryState.succeeded ∧
        q.2 = recordStats (g eid) := by
  intro l
  induction l with
  | nil => intro q hq; simp [sweep] at hq
  | cons p rest ih =>
    obtain ⟨name, eid⟩ := p
    intro q hq
    cases h : (g eid).state with
    | succeeded =>
      simp [sweep, h] at hq
      rcases hq with ⟨rfl, rfl⟩ | hq
      · exact ⟨eid, List.mem_cons_self _ _, h, rfl⟩
      · obtain ⟨e, he, hst, hrec⟩ := ih q hq
        exact ⟨e, List.mem_cons_of_mem _ he, hst, hrec⟩
    | failed =>
      simp [sweep, h] at hq
      obtain ⟨e, he, hst, hrec⟩ := ih q hq
      exact ⟨e, List.mem_cons_of_mem _ he, hst, hrec⟩
    | cancelled =>
      simp [sweep, h] at hq
      obtain ⟨e, he, hst, hrec⟩ := ih q hq
      exact ⟨e, List.mem_cons_of_mem _ he, hst, hrec⟩
    | running =>
      simp [sweep, h] at hq
      obtain ⟨e, he, hst, hrec⟩ := ih q hq
      exact ⟨e, List.mem_cons_of_mem _ he, hst, hrec⟩

theorem sweep_failed_src (g : String → QueryPollResponse) :
    ∀ l : List (String × String), ∀ x ∈ (sweep g l).newFailed,
      ∃ eid, (x, eid) ∈ l ∧
        ((g eid).state = QueryState.failed ∨ (g eid).state = QueryState.cancelled) := by
  intro l
  induction l with
  | nil => intro x hx; simp [sweep] at hx
  | cons p rest ih =>
    obtain ⟨name, eid⟩ := p
    intro x hx
    cases h : (g eid).state with
    | failed =>
      simp [sweep, h] at hx
      rcases hx with rfl | hx
      · exact ⟨eid, List.mem_cons_self _ _, Or.inl h⟩
      · obtain ⟨e, he, hst⟩ := ih x hx
        exact ⟨e, List.mem_cons_of_mem _ he, hst⟩
    | cancelled =>
      simp [sweep, h] at hx
      rcases hx with rfl | hx
      · exact ⟨eid, List.mem_cons_self _ _, Or.inr h⟩
      · obtain ⟨e, he, hst⟩ := ih x hx
        exact ⟨e, List.mem_cons_of_mem _ he, hst⟩
    | succeeded =>
      simp [sweep, h] at hx
      obtain ⟨e, he, hst⟩ := ih x hx
      exact ⟨e, List.mem_cons_of_mem _ he, hst⟩
    | running =>
      simp [sweep, h] at hx
      obtain ⟨e, he, hst⟩ := ih x hx
      exact ⟨e, List.mem_cons_of_mem _ he, hst⟩

theorem waitLoop_nil (poll : Nat → String → QueryPollResponse) (fuel n : Nat)
    (interval : ℚ) (stats : List (String × QueryStats)) (failed : List String)
    (sleeps : List ℚ) :
    waitLoop poll fuel n interval [] stats failed sleeps
      = some ([], stats, failed, sleeps) := by
  cases fuel <;> rfl

theorem waitLoop_inv (poll : Nat → String → QueryPollResponse) :
    ∀ (fuel n : Nat) (interval : ℚ) (running : List (String × String))
      (stats : List (String × QueryStats)) (failed : List String) (sleeps : List ℚ)
      {r : List (String × String)} {s : List (String × QueryStats)}
      {f : List String} {sl : List ℚ},
      waitLoop poll fuel n interval running stats failed sleeps = some (r, s, f, sl) →
      r = [] ∧
      (∀ x, (s.map Prod.fst).count x + f.count x
          = (stats.map Prod.fst).count x + failed.count x
            + (running.map Prod.fst).count x) ∧
      (∀ q ∈ s, q ∈ stats ∨ ∃ k eid, (q.1, eid) ∈ running ∧
          (poll k eid).state = QueryState.succeeded ∧ q.2 = recordStats (poll k eid)) ∧
      (∀ x ∈ f, x ∈ failed ∨ ∃ k eid, (x, eid) ∈ running ∧
          ((poll k eid).state = QueryState.failed ∨
            (poll k eid).state = QueryState.cancelled)) := by
  intro fuel
  induction fuel with
  | zero =>
    intro n interval running stats failed sleeps r s f sl h
    by_cases hre : running.isEmpty
    · simp only [waitLoop, hre, if_true, Option.some.injEq, Prod.mk.injEq] at h
      obtain ⟨rfl, rfl, rfl, rfl⟩ := h
      have hrun : running = [] := List.isEmpty_iff.mp hre
      subst hrun
      exact ⟨rfl, fun x => by simp, fun q hq => Or.inl hq, fun x hx => Or.inl hx⟩
    · simp only [waitLoop, hre, Bool.false_eq_true, if_false] at h
      exact Option.noConfusion h
  | succ fuel ih =>
    intro n interval running stats failed sleeps r s f sl h
    by_cases hre : running.isEmpty
    · simp only [waitLoop, hre, if_true, Option.some.injEq, Prod.mk.injEq] at h
      obtain ⟨rfl, rfl, rfl, rfl⟩ := h
      have hrun : running = [] := List.isEmpty_iff.mp hre
      subst hrun
      exact ⟨rfl, fun x => by simp, fun q hq => Or.inl hq, fun x hx => Or.inl hx⟩
    · simp only [waitLoop, hre, Bool.false_eq_true, if_false] at h
      split at h <;>
      · obtain ⟨h1, h2, h3, h4⟩ := ih _ _ _ _ _ _ h
        refine ⟨h1, fun x => ?_, fun q hq => ?_, fun x hx => ?_⟩
        · have hc := h2 x
          have hsc := sweep_count (poll n) x running
          simp only [List.map_append, List.count_append] at hc
          omega
        · rcases h3 q hq with hq2 | ⟨k, eid, hmem, hstate, hrec⟩
          · rcases List.mem_append.mp hq2 with h5 | h6
            · exact Or.inl h5
            · obtain ⟨eid, he, hst, hrec⟩ := sweep_stats_src (poll n) running q h6
              exact Or.inr ⟨n, eid, he, hst, hrec⟩
          · exact Or.inr ⟨k, eid, sweep_still_mem (poll n) running _ hmem, hstate, hrec⟩
        · rcases h4 x hx with hx2 | ⟨k, eid, hmem, hstate⟩
          · rcases List.mem_append.mp hx2 with h5 | h6
            · exact Or.inl h5
            · obtain ⟨eid, he, hst⟩ := sweep_failed_src (poll n) running x h6
              exact Or.inr ⟨n, eid, he, hst⟩
          · exact Or.inr ⟨k, eid, sweep_still_mem (poll n) running _ hmem, hstate⟩

/-- Claim C1: for every batch of submitted queries, after `wait_for_queries`
returns (normally or by raising the aggregate failure), the tracked set is
empty, and every submitted name appears exactly once in the outcome — in the
statistics summary (whose values come from a genuinely SUCCEEDED poll of
the execution id of that query, with omitted backend fields defaulted to zero by
`recordStats`) or in the failure list (backed by a FAILED or CANCELLED poll
of the execution id of that query) — never in both, never omitted, and no name
that was not submitted appears. -/
theorem C1_wait_partition (poll : Nat → String → QueryPollResponse) (fuel : Nat)
    (running : List (String × String)) (out : WaitOutcome)
    (h : wait_for_queries poll fuel running = some out)
    (hnd : (running.map Prod.fst).Nodup) :
    out.tracked_after = [] ∧
    (∀ x, x ∈ running.map Prod.fst →
        (out.completed_stats.map Prod.fst).count x + out.failed_queries.count x = 1) ∧
    (∀ x, x ∉ running.map Prod.fst →
        (out.completed_stats.map Prod.fst).count x + out.failed_queries.count x = 0) ∧
    (∀ q ∈ out.completed_stats, ∃ k eid, (q.1, eid) ∈ running ∧
        (poll k eid).state = QueryState.succeeded ∧ q.2 = recordStats (poll k eid)) ∧
    (∀ x ∈ out.failed_queries, ∃ k eid, (x, eid) ∈ running ∧
        ((poll k eid).state = QueryState.failed ∨
          (poll k eid).state = QueryState.cancelled)) := by
  unfold wait_for_queries at h
  cases hw : waitLoop poll fuel 0 1 running [] [] [] with
  | none => rw [hw] at h; exact Option.noConfusion h
  | some t =>
    obtain ⟨r, s, f, sl⟩ := t
    rw [hw] at h
    have hout : out = { tracked_after := r, completed_stats := s, failed_queries := f,
                        sleeps := sl,
                        raised := (if f.isEmpty then none else some (f.length, f)) } := by
      injection h with h2
      exact h2.symm
    subst hout
    dsimp only
    obtain ⟨h1, h2, h3, h4⟩ := waitLoop_inv poll fuel 0 1 running [] [] [] hw
    refine ⟨h1, fun x hx => ?_, fun x hx => ?_, fun q hq => ?_, fun x hx => ?_⟩
    · have hc := h2 x
      simp only [List.map_nil, List.count_nil] at hc
      have h5 := List.count_eq_one_of_mem hnd hx
      omega
    · have hc := h2 x
      simp only [List.map_nil, List.count_nil] at hc
      have h5 := List.count_eq_zero_of_not_mem hx
      omega
    · rcases h3 q hq with h5 | h6
      · exact absurd h5 (List.not_mem_nil q)
      · exact h6
    · rcases h4 x hx with h5 | h6
      · exact absurd h5 (List.not_mem_nil x)
      · exact h6

theorem C1_wait_partition_witness :
    demoOut.tracked_after = [] ∧
    (∀ x, x ∈ demoRunning.map Prod.fst →
        (demoOut.completed_stats.map Prod.fst).count x
          + demoOut.failed_queries.count x = 1) ∧
    (∀ x, x ∉ demoRunning.map Prod.fst →
        (demoOut.completed_stats.map Prod.fst).count x
          + demoOut.failed_queries.count x = 0) ∧
    (∀ q ∈ demoOut.completed_stats, ∃ k eid, (q.1, eid) ∈ demoRunning ∧
        (demoPoll k eid).state = QueryState.succeeded ∧
        q.2 = recordStats (demoPoll k eid)) ∧
    (∀ x ∈ demoOut.failed_queries, ∃ k eid, (x, eid) ∈ demoRunning ∧
        ((demoPoll k eid).state = QueryState.failed ∨
          (demoPoll k eid).state = QueryState.cancelled)) :=
  C1_wait_partition demoPoll 1 demoRunning demoOut (by decide) (by decide)

/-- Claim C2: for every batch in which the failure list ends non-empty,
`wait_for_queries` drains the entire tracked set (no early abort on the
first failure), raises exactly one aggregate error carrying the failure
count and every failed name, and still records the statistics of every
succeeded query in the same batch: together with the failed names they
account for every submitted name. -/
theorem C2_aggregate_failure (poll : Nat → String → QueryPollResponse) (fuel : Nat)
    (running : List (String × String)) (out : WaitOutcome)
    (h : wait_for_queries poll fuel running = some out)
    (hfail : out.failed_queries ≠ []) :
    out.raised = some (out.failed_queries.length, out.failed_queries) ∧
    out.tracked_after = [] ∧
    (∀ x, (out.completed_stats.map Prod.fst).count x + out.failed_queries.count x
        = (running.map Prod.fst).count x) ∧
    (∀ q ∈ out.completed_stats, ∃ k eid, (q.1, eid) ∈ running ∧
        (poll k eid).state = QueryState.succeeded ∧
        q.2 = recordStats (poll k eid)) := by
  unfold wait_for_queries at h
  cases hw : waitLoop poll fuel 0 1 running [] [] [] with
  | none => rw [hw] at h; exact Option.noConfusion h
  | some t =>
    obtain ⟨r, s, f, sl⟩ := t
    rw [hw] at h
    have hout : out = { tracked_after := r, completed_stats := s, failed_queries := f,
                        sleeps := sl,
                        raised := (if f.isEmpty then none else some (f.length, f)) } := by
      injection h with h2
      exact h2.symm
    subst hout
    dsimp only
    dsimp only at hfail
    obtain ⟨h1, h2, h3, h4⟩ := waitLoop_inv poll fuel 0 1 running [] [] [] hw
    have hfe : f.isEmpty = false := by
      cases f with
      | nil => exact absurd rfl hfail
      | cons a l => rfl
    refine ⟨by simp [hfe], h1, fun x => ?_, fun q hq => ?_⟩
    · have hc := h2 x
      simp only [List.map_nil, List.count_nil] at hc
      omega
    · rcases h3 q hq with h5 | h6
      · exact absurd h5 (List.not_mem_nil q)
      · exact h6

theorem C2_aggregate_failure_witness :
    demoOut.raised = some (demoOut.failed_queries.length, demoOut.failed_queries) ∧
    demoOut.tracked_after = [] ∧
    (∀ x, (demoOut.completed_stats.map Prod.fst).count x
        + demoOut.failed_queries.count x = (demoRunning.map Prod.fst).count x) ∧
    (∀ q ∈ demoOut.completed_stats, ∃ k eid, (q.1, eid) ∈ demoRunning ∧
        (demoPoll k eid).state = QueryState.succeeded ∧
        q.2 = recordStats (demoPoll k eid)) :=
  C2_aggregate_failure demoPoll 1 demoRunning demoOut (by decide) (by decide)

theorem intervalSeq_bounds : ∀ n, 1 ≤ intervalSeq n ∧ intervalSeq n ≤ 10 := by
  intro n
  induction n with
  | zero => constructor <;> norm_num [intervalSeq]
  | succ n ih =>
    obtain ⟨h1, h2⟩ := ih
    constructor
    · apply le_min
      · norm_num
      · nlinarith
    · exact min_le_left _ _

theorem intervalSeq_le_succ (n : Nat) : intervalSeq n ≤ intervalSeq (n + 1) := by
  obtain ⟨h1, h2⟩ := intervalSeq_bounds n
  apply le_min h2
  nlinarith

theorem waitLoop_sleeps (poll : Nat → String → QueryPollResponse) :
    ∀ (fuel n : Nat) (running : List (String × String))
      (stats : List (String × QueryStats)) (failed : List String)
      {r : List (String × String)} {s : List (String × QueryStats)}
      {f : List String} {sl : List ℚ},
      waitLoop poll fuel n (intervalSeq n) running stats failed
          ((List.range n).map intervalSeq) = some (r, s, f, sl) →
      ∃ k, sl = (List.range k).map intervalSeq := by
  intro fuel
  induction fuel with
  | zero =>
    intro n running stats failed r s f sl h
    by_cases hre : running.isEmpty
    · simp only [waitLoop, hre, if_true, Option.some.injEq, Prod.mk.injEq] at h
      exact ⟨n, h.2.2.2.symm⟩
    · simp only [waitLoop, hre, Bool.false_eq_true, if_false] at h
      exact Option.noConfusion h
  | succ fuel ih =>
    intro n running stats failed r s f sl h
    by_cases hre : running.isEmpty
    · simp only [waitLoop, hre, if_true, Option.some.injEq, Prod.mk.injEq] at h
      exact ⟨n, h.2.2.2.symm⟩
    · simp only [waitLoop, hre, Bool.false_eq_true, if_false] at h
      by_cases hst : (sweep (poll n) running).still_running.isEmpty
      · rw [if_pos hst] at h
        have hnil : (sweep (poll n) running).still_running = [] :=
          List.isEmpty_iff.mp hst
        rw [hnil, waitLoop_nil] at h
        injection h with h2
        refine ⟨n, ?_⟩
        have h5 := congrArg (fun t : _ × _ × _ × List ℚ => t.2.2.2) h2
        exact h5.symm
      · rw [if_neg hst] at h
        have hn : min 10 (intervalSeq n * (3 / 2)) = intervalSeq (n + 1) := rfl
        have hsl : (List.range n).map intervalSeq ++ [intervalSeq n]
            = (List.range (n + 1)).map intervalSeq := by
          rw [List.range_succ, List.map_append]
          rfl
        rw [hn, hsl] at h
        exact ih (n + 1) _ _ _ h

/-- Claim C4: the poll interval sequence starts at 1, each step multiplies
by 1.5 and caps at 10, it is monotonically non-decreasing and never exceeds
10, its first values are 1, 1.5, 2.25, 3.375, 5.0625, 7.59375, 10, 10; the
intervals actually slept by the loop are exactly an initial run of this
sequence; and within each sweep every currently tracked query is
status-checked exactly once (the checked trace is the tracked snapshot)
before the loop decides whether to sleep again. -/
theorem C4_backoff_schedule :
    intervalSeq 0 = 1 ∧
    (∀ n, intervalSeq (n + 1) = min 10 (intervalSeq n * (3 / 2))) ∧
    (∀ m n, m ≤ n → intervalSeq m ≤ intervalSeq n) ∧
    (∀ n, intervalSeq n ≤ 10) ∧
    (List.range 8).map intervalSeq = [1, 3/2, 9/4, 27/8, 81/16, 243/32, 10, 10] ∧
    (∀ (g : String → QueryPollResponse) (l : List (String × String)),
        (sweep g l).checked = l) ∧
    (∀ (poll : Nat → String → QueryPollResponse) (fuel : Nat)
        (running : List (String × String)) (out : WaitOutcome),
        wait_for_queries poll fuel running = some out →
        ∃ k, out.sleeps = (List.range k).map intervalSeq) := by
  refine ⟨rfl, fun n => rfl, ?_, fun n => (intervalSeq_bounds n).2, ?_, sweep_checked, ?_⟩
  · exact fun m n h => monotone_nat_of_le_succ intervalSeq_le_succ h
  · norm_num [List.range_succ, intervalSeq, nextInterval, min_def]
  · intro poll fuel running out h
    unfold wait_for_queries at h
    cases hw : waitLoop poll fuel 0 1 running [] [] [] with
    | none => rw [hw] at h; exact Option.noConfusion h
    | some t =>
      obtain ⟨r, s, f, sl⟩ := t
      rw [hw] at h
      have hsl : out.sleeps = sl := by
        injection h with h2
        rw [← h2]
      rw [hsl]
      exact waitLoop_sleeps poll fuel 0 running [] [] hw

/-- Claim C3 evaluated on the code: `running_queries` is a class attribute
(athena.py line 20) that no method ever rebinds, so the item assignment in
`run_query` (line 148) mutates state shared by every instance.  Two distinct
runner instances are built over the one class object holding an empty dict;
after the first instance submits query `q1`, the mapping read through the
second instance already contains `q1` — the mapping of one instance is
affected by submissions through the other, refuting per-instance ownership
at this concrete input. -/
theorem C3_class_level_sharing :
    (({ instance_id := 0 } : AthenaRunnerId) ≠ { instance_id := 1 }) ∧
    read_running_queries { instance_id := 1 }
        (submit_tracking { instance_id := 0 } { running_queries := [] } "q1" "e1")
      = [("q1", "e1")] ∧
    read_running_queries { instance_id := 1 }
        (submit_tracking { instance_id := 0 } { running_queries := [] } "q1" "e1")
      ≠ read_running_queries { instance_id := 1 } { running_queries := [] } := by
  decide

/-- Counterexample to claim C5 as stated: for the literal query
`" SELECT 1 "` with no prefix or suffix, the code submits the string with
its whitespace intact, not the trimmed `"SELECT 1"` the claim promises. -/
theorem C5_literal_not_trimmed_cex :
    run_query_sql (some " SELECT 1 ") none none none
        (fun _ => Except.error (LoadError.fileNotFound "missing"))
      = Except.ok " SELECT 1 " ∧
    pyStrip " SELECT 1 " = "SELECT 1" ∧
    (" SELECT 1 " : String) ≠ "SELECT 1" :=
  ⟨rfl, by decide, by decide⟩

/-- Claim C5 as amended: when a literal SQL string is supplied and no prefix
or suffix is given, the resolved query submitted to the engine is that
string returned unchanged — with no trimming applied. -/
theorem C5_literal_unchanged (q : String) (query_path : Option String)
    (loadFn : String → Except LoadError String) :
    run_query_sql (some q) query_path none none loadFn = Except.ok q := rfl

/-- Counterexample to claim C6 as stated: composing the body `" SELECT 1 "`
with prefix `"CREATE TABLE t AS"` keeps the body untrimmed inside the
parentheses, while the reading of the claim, "each of the three segments trimmed",
(`claim_composeQuery`) would trim it. -/
theorem C6_compose_cex :
    composeQuery " SELECT 1 " (some "CREATE TABLE t AS") none
      = "CREATE TABLE t AS ( SELECT 1 )" ∧
    claim_composeQuery " SELECT 1 " (some "CREATE TABLE t AS") none
      = "CREATE TABLE t AS (SELECT 1)" ∧
    composeQuery " SELECT 1 " (some "CREATE TABLE t AS") none
      ≠ claim_composeQuery " SELECT 1 " (some "CREATE TABLE t AS") none := by
  decide

/-- Claim C6 as amended: when a prefix or suffix is (truthily) present the
composed query is `strip(strip(prefix) + " (" + body + ") " + strip(suffix))`
— the prefix and suffix are trimmed and the whole result is trimmed, but the
body inside the parentheses is left untrimmed; when neither is present, no
parenthesization occurs and the body is returned unchanged.  The whitespace-free example of the spec still composes as stated. -/
theorem C6_compose_amended :
    (∀ body, composeQuery body none none = body) ∧
    (∀ body, composeQuery body (some "") (some "") = body) ∧
    composeQuery "SELECT 1" (some "CREATE TABLE t AS") none
      = "CREATE TABLE t AS (SELECT 1)" ∧
    (∀ body pfx sfx, (pyTruthy pfx || pyTruthy sfx) = true →
        composeQuery body pfx sfx
          = pyStrip (pyStrip (pfx.getD "") ++ " (" ++ body ++ ") "
              ++ pyStrip (sfx.getD ""))) := by
  refine ⟨fun body => rfl, fun body => rfl, by decide, ?_⟩
  intro body pfx sfx htr
  unfold composeQuery
  rw [htr]
  rfl

theorem beginMarkers_not_end (qn : String) :
    ∀ x ∈ beginMarkers qn, isEndLine x = false := by
  intro x hx
  simp only [beginMarkers, List.mem_cons, List.not_mem_nil, or_false] at hx
  rcases hx with rfl | rfl
  · unfold isEndLine pyStartsWith
    have h1 : ("-- BEGIN " ++ qn).toList
        = '-' :: '-' :: ' ' :: 'B' :: 'E' :: 'G' :: 'I' :: 'N' :: ' ' :: qn.toList := by
      show ("-- BEGIN " ++ qn).data = _
      rw [String.data_append]
      rfl
    rw [h1]
    show (List.isPrefixOf ['-', '-', 'E', 'N', 'D'] _
      || List.isPrefixOf ['-', '-', ' ', 'E', 'N', 'D'] _) = false
    simp [List.isPrefixOf]
  · unfold isEndLine pyStartsWith
    have h1 : ("--BEGIN " ++ qn).toList
        = '-' :: '-' :: 'B' :: 'E' :: 'G' :: 'I' :: 'N' :: ' ' :: qn.toList := by
      show ("--BEGIN " ++ qn).data = _
      rw [String.data_append]
      rfl
    rw [h1]
    show (List.isPrefixOf ['-', '-', 'E', 'N', 'D'] _
      || List.isPrefixOf ['-', '-', ' ', 'E', 'N', 'D'] _) = false
    simp [List.isPrefixOf]

theorem collect_true_eq (markers : List String)
    (hm : ∀ x ∈ markers, isEndLine x = false) :
    ∀ lines : List String,
      collectBlockLines markers lines true
        = (lines.takeWhile (fun l => !(isEndLine (pyStrip l)))).filter
            (fun l => !(markers.contains (pyStrip l))) := by
  intro lines
  induction lines with
  | nil => rfl
  | cons line rest ih =>
    by_cases hmk : pyStrip line ∈ markers
    · have hend : isEndLine (pyStrip line) = false := hm _ hmk
      simp [collectBlockLines, hmk, hend, List.takeWhile_cons, List.filter_cons, ih]
    · by_cases hend : isEndLine (pyStrip line)
      · simp [collectBlockLines, hmk, hend, List.takeWhile_cons]
      · simp [collectBlockLines, hmk, hend, List.takeWhile_cons, List.filter_cons, ih]

theorem collect_false_eq (markers : List String)
    (hm : ∀ x ∈ markers, isEndLine x = false) :
    ∀ lines : List String,
      collectBlockLines markers lines false = specBlockLines markers lines := by
  intro lines
  induction lines with
  | nil => rfl
  | cons line rest ih =>
    by_cases hmk : pyStrip line ∈ markers
    · have ht := collect_true_eq markers hm rest
      simp [collectBlockLines, specBlockLines, claimBlockLines, hmk,
        List.dropWhile_cons, ht]
    · simp only [specBlockLines, claimBlockLines] at ih
      simp [collectBlockLines, specBlockLines, claimBlockLines, hmk,
        List.dropWhile_cons, ih]

theorem collect_false_nil (markers : List String) :
    ∀ lines : List String,
      (∀ l ∈ lines, pyStrip l ∉ markers) →
      collectBlockLines markers lines false = [] := by
  intro lines
  induction lines with
  | nil => intro _; rfl
  | cons line rest ih =>
    intro hall
    have hmk : pyStrip line ∉ markers := hall line (List.mem_cons_self _ _)
    simp [collectBlockLines, hmk]
    exact ih (fun l hl => hall l (List.mem_cons_of_mem _ hl))

/-- A file content with a repeated begin marker inside the block: the code
skips the duplicated marker line, so the extracted block is not "exactly the
lines strictly between" the first marker and the end line. -/
def dupMarkerContent : String :=
  "-- BEGIN foo" ++ "\n" ++ "A" ++ "\n" ++ "-- BEGIN foo" ++ "\n" ++ "B" ++ "\n" ++ "--END"

/-- Counterexample to claim C7 as stated: on a file whose block contains a
repeated `-- BEGIN foo` line, the code returns `"A\nB"` (the duplicate
marker line is consumed by the `continue`), while the reading of the claim, "exactly the
lines strictly between" reading returns `"A\n-- BEGIN foo\nB"`. -/
theorem C7_block_cex :
    load_query_block dupMarkerContent "foo" = some ("A" ++ "\n" ++ "B") ∧
    claim_load_query_block dupMarkerContent "foo"
      = some ("A" ++ "\n" ++ "-- BEGIN foo" ++ "\n" ++ "B") ∧
    load_query_block dupMarkerContent "foo"
      ≠ claim_load_query_block dupMarkerContent "foo" := by
  decide

/-- Claim C7 as amended: resolving a block returns, trimmed, the lines
strictly between the first line whose stripped content is exactly
`-- BEGIN <name>` or `--BEGIN <name>` and the next subsequent line whose
stripped content starts with `--END` or `-- END` — excluding any repeated
begin-marker lines for the same name — and it fails with the
block-not-found KeyError when no begin marker matched (and exactly when the
collected block is empty after trimming). -/
theorem C7_block_extraction :
    (∀ content qn, load_query_block content qn = spec_load_query_block content qn) ∧
    (∀ content qn,
        load_query_block content qn = none ↔
          pyStrip (String.intercalate "\n"
            (specBlockLines (beginMarkers qn) (pySplitNL content))) = "") ∧
    (∀ content qn,
        (∀ l ∈ pySplitNL content, pyStrip l ∉ beginMarkers qn) →
        load_query_block content qn = none) := by
  have hmain : ∀ content qn,
      load_query_block content qn = spec_load_query_block content qn := by
    intro content qn
    unfold load_query_block spec_load_query_block
    rw [collect_false_eq (beginMarkers qn) (beginMarkers_not_end qn) (pySplitNL content)]
  refine ⟨hmain, ?_, ?_⟩
  · intro content qn
    rw [hmain]
    by_cases hcond : pyStrip (String.intercalate "\n"
        (specBlockLines (beginMarkers qn) (pySplitNL content))) = ""
    · simp [spec_load_query_block, hcond]
    · simp [spec_load_query_block, hcond]
  · intro content qn hall
    unfold load_query_block
    rw [collect_false_nil (beginMarkers qn) (pySplitNL content) hall]
    rfl

/-- Claim C8 evaluated on the code: the storage prefix `"s3://bucket/"` has
no path segment after the bucket, yet `_list_partitions_from_s3` accepts it
(for every listing oracle) instead of raising the `ValueError` its own error
message promises — the validation only checks that the remainder contains a
`/`.  The partition filtering itself behaves as claimed: on the example listing of the spec, exactly the `ds=<value>` children are extracted and
`"other/"` is skipped. -/
theorem C8_empty_path_accepted :
    list_partitions_from_s3 (fun _ _ => []) "s3://bucket/" "ds"
      = Except.ok ([], "bucket") ∧
    (∀ (listCP : String → String → List String) (pk : String),
        ∃ v, list_partitions_from_s3 listCP "s3://bucket/" pk = Except.ok v) ∧
    list_partitions_from_s3
        (fun _ _ => ["path/ds=2024-01-01/", "path/ds=2024-01-02/", "path/other/"])
        "s3://bucket/path/" "ds"
      = Except.ok ([("2024-01-01", "path/ds=2024-01-01/"),
                    ("2024-01-02", "path/ds=2024-01-02/")], "bucket") :=
  ⟨rfl, fun listCP pk => ⟨_, rfl⟩, rfl⟩

theorem chunks100_nil : chunks100 [] = [] := by
  rw [chunks100]
  rfl

theorem chunks100_cons (l : List PartitionInput) (h : l ≠ []) :
    chunks100 l = l.take 100 :: chunks100 (l.drop 100) := by
  rw [chunks100]
  rw [dif_neg h]

theorem chunks100_join : ∀ l : List PartitionInput, (chunks100 l).flatten = l := by
  have key : ∀ (n : Nat) (l : List PartitionInput), l.length ≤ n →
      (chunks100 l).flatten = l := by
    intro n
    induction n with
    | zero =>
      intro l hl
      have h0 : l = [] := List.eq_nil_of_length_eq_zero (Nat.le_zero.mp hl)
      subst h0
      simp [chunks100_nil]
    | succ n ih =>
      intro l hl
      by_cases h : l = []
      · subst h
        simp [chunks100_nil]
      · rw [chunks100_cons l h]
        have hlen : (l.drop 100).length ≤ n := by
          have : l.length ≠ 0 := fun hz => h (List.eq_nil_of_length_eq_zero hz)
          simp only [List.length_drop]
          omega
        simp only [List.flatten_cons, ih _ hlen, List.take_append_drop]
  exact fun l => key l.length l le_rfl

theorem chunks100_sizes : ∀ l : List PartitionInput, ∀ b ∈ chunks100 l,
    b.length ≤ 100 ∧ b ≠ [] := by
  have key : ∀ (n : Nat) (l : List PartitionInput), l.length ≤ n →
      ∀ b ∈ chunks100 l, b.length ≤ 100 ∧ b ≠ [] := by
    intro n
    induction n with
    | zero =>
      intro l hl b hb
      have h0 : l = [] := List.eq_nil_of_length_eq_zero (Nat.le_zero.mp hl)
      subst h0
      rw [chunks100_nil] at hb
      exact absurd hb (List.not_mem_nil b)
    | succ n ih =>
      intro l hl b hb
      by_cases h : l = []
      · subst h
        rw [chunks100_nil] at hb
        exact absurd hb (List.not_mem_nil b)
      · rw [chunks100_cons l h] at hb
        rcases List.mem_cons.mp hb with rfl | hb2
        · constructor
          · simpa using List.length_take_le 100 l
          · simp only [ne_eq, List.take_eq_nil_iff]
            push_neg
            exact ⟨by omega, h⟩
        · have hlen : (l.drop 100).length ≤ n := by
            have : l.length ≠ 0 := fun hz => h (List.eq_nil_of_length_eq_zero hz)
            simp only [List.length_drop]
            omega
          exact ih _ hlen b hb2
  exact fun l => key l.length l le_rfl

theorem glueCreateLoop_eq (glueErrs : Nat → List PartitionInput → List String) :
    ∀ (n : Nat) (inputs : List PartitionInput) (i k : Nat) (c : Int),
      inputs.length - i ≤ n →
      glueCreateLoop glueErrs inputs i k c
        = c + sumCreatedFrom glueErrs k (chunks100 (inputs.drop i)) := by
  intro n
  induction n with
  | zero =>
    intro inputs i k c hn
    have hge : inputs.length ≤ i := by omega
    rw [glueCreateLoop, dif_neg (by omega : ¬ i < inputs.length)]
    rw [List.drop_eq_nil_of_le hge, chunks100_nil]
    simp [sumCreatedFrom]
  | succ n ih =>
    intro inputs i k c hn
    by_cases hlt : i < inputs.length
    · rw [glueCreateLoop, dif_pos hlt]
      have hside : inputs.length - (i + 100) ≤ n := by omega
      rw [ih inputs (i + 100) (k + 1) _ hside]
      have hne : inputs.drop i ≠ [] := by
        intro h0
        have h1 := congrArg List.length h0
        simp only [List.length_drop, List.length_nil] at h1
        omega
      rw [chunks100_cons _ hne]
      have hdd : (inputs.drop i).drop 100 = inputs.drop (i + 100) := by
        rw [List.drop_drop, Nat.add_comm]
      rw [hdd]
      simp only [sumCreatedFrom]
      ring
    · rw [glueCreateLoop, dif_neg hlt]
      rw [List.drop_eq_nil_of_le (by omega), chunks100_nil]
      simp [sumCreatedFrom]

theorem sumCreatedFrom_congr (g1 g2 : Nat → List PartitionInput → List String)
    (hlen : ∀ k b, (g1 k b).length = (g2 k b).length) :
    ∀ (k : Nat) (cs : List (List PartitionInput)),
      sumCreatedFrom g1 k cs = sumCreatedFrom g2 k cs := by
  intro k cs
  induction cs generalizing k with
  | nil => rfl
  | cons b rest ih => simp [sumCreatedFrom, hlen, ih]

/-- Claim C9: `add_partitions_with_glue` submits the partition inputs in
successive batches of at most 100 that together cover the whole list in
order, returns the sum over all batches of `batch size - reported errors`,
and no reported error aborts the remaining batches or the overall call: the
returned count depends only on how many errors each call reports, never on
their messages (an `AlreadyExistsException` affects nothing but a log
line). -/
theorem C9_glue_batching :
    (∀ (glueErrs : Nat → List PartitionInput → List String)
        (inputs : List PartitionInput),
        add_partitions_created glueErrs inputs
          = sumCreatedFrom glueErrs 0 (chunks100 inputs)) ∧
    (∀ (inputs : List PartitionInput), ∀ b ∈ chunks100 inputs,
        b.length ≤ 100 ∧ b ≠ []) ∧
    (∀ (inputs : List PartitionInput), (chunks100 inputs).flatten = inputs) ∧
    (∀ (g1 g2 : Nat → List PartitionInput → List String)
        (inputs : List PartitionInput),
        (∀ k b, (g1 k b).length = (g2 k b).length) →
        add_partitions_created g1 inputs = add_partitions_created g2 inputs) := by
  have hmain : ∀ (glueErrs : Nat → List PartitionInput → List String)
      (inputs : List PartitionInput),
      add_partitions_created glueErrs inputs
        = sumCreatedFrom glueErrs 0 (chunks100 inputs) := by
    intro glueErrs inputs
    unfold add_partitions_created
    rw [glueCreateLoop_eq glueErrs inputs.length inputs 0 0 0 (by omega)]
    simp
  refine ⟨hmain, chunks100_sizes, chunks100_join, ?_⟩
  intro g1 g2 inputs hlen
  rw [hmain, hmain]
  exact sumCreatedFrom_congr g1 g2 hlen 0 (chunks100 inputs)

/-- Claim C10: a supplied literal query string takes precedence: the file
loader is never consulted (the result does not depend on it), the empty
string counts as a supplied literal and resolves to the empty query instead
of loading the path, and the missing-arguments ValueError is raised exactly
when the query is not a string and the query path is absent or empty. -/
theorem C10_literal_precedence :
    (∀ (q : String) (query_path pfx sfx : Option String)
        (loadFn1 loadFn2 : String → Except LoadError String),
        run_query_sql (some q) query_path pfx sfx loadFn1
          = run_query_sql (some q) query_path pfx sfx loadFn2) ∧
    (∀ (p : String) (loadFn : String → Except LoadError String),
        resolve_query (some "") (some p) loadFn = Except.ok "") ∧
    (∀ (query query_path : Option String)
        (loadFn : String → Except LoadError String),
        resolve_query query query_path loadFn
            = Except.error (RunQueryError.valueError missingArgsMsg) ↔
          (query = none ∧ (query_path = none ∨ query_path = some ""))) := by
  refine ⟨fun q qp pfx sfx l1 l2 => rfl, fun p l => rfl, ?_⟩
  intro query query_path loadFn
  cases query with
  | some q => simp [resolve_query]
  | none =>
    cases query_path with
    | none => simp [resolve_query, pyTruthy]
    | some p =>
      by_cases hp : p = ""
      · subst hp
        simp [resolve_query, pyTruthy]
      · simp only [resolve_query, pyTruthy, Option.getD_some]
        rw [if_pos (by simp [hp])]
        cases hl : loadFn p with
        | ok v => simp [Except.mapError, hp]
        | error e => simp [Except.mapError, hp]
